import Mathlib

/-!
Verification of the Gig Worker Analytics Hub core (src/app.py, src/granite_helper.py).

The development shallowly embeds the data-validation, sample-data-generation and
aggregation logic of `app.py`, and the advisory-call dispatch of `granite_helper.py`,
as executable Lean definitions, and proves the specified properties about them.

Calendar dates are represented as days since 1970-01-01 (a `Nat`; every date the
program manipulates is after the epoch).  The civil-calendar conversions implement
the standard Gregorian algorithms used by date libraries.
-/

namespace GigHub

/-- Gregorian leap-year test. -/
def isLeap (y : Nat) : Bool :=
  (y % 4 = 0 && y % 100 != 0) || y % 400 = 0

/-- Number of days in month `m` (1-12) of year `y`. -/
def daysInMonth (y m : Nat) : Nat :=
  if m = 2 then (if isLeap y then 29 else 28)
  else if m = 4 ∨ m = 6 ∨ m = 9 ∨ m = 11 then 30
  else 31

/-- Days since 1970-01-01 of the civil date `y-m-d` (valid for dates from 1970 on). -/
def daysFromCivil (y m d : Nat) : Nat :=
  let y1 := if m ≤ 2 then y - 1 else y
  let era := y1 / 400
  let yoe := y1 - era * 400
  let mp := if 2 < m then m - 3 else m + 9
  let doy := (153 * mp + 2) / 5 + d - 1
  let doe := yoe * 365 + yoe / 4 - yoe / 100 + doy
  era * 146097 + doe - 719468

/-- Civil date `(y, m, d)` of a day count since 1970-01-01. -/
def civilFromDays (z : Nat) : Nat × Nat × Nat :=
  let z1 := z + 719468
  let era := z1 / 146097
  let doe := z1 - era * 146097
  let yoe := (doe - doe / 1460 + doe / 36524 - doe / 146096) / 365
  let doy := doe - (365 * yoe + yoe / 4 - yoe / 100)
  let mp := (5 * doy + 2) / 153
  let d := doy - (153 * mp + 2) / 5 + 1
  let m := if mp < 10 then mp + 3 else mp - 9
  let y := yoe + era * 400 + (if m ≤ 2 then 1 else 0)
  (y, m, d)

/-- Zero-pad a month/day number to two digits. -/
def pad2 (n : Nat) : String :=
  if n < 10 then "0" ++ toString n else toString n

/-- ISO `YYYY-MM-DD` rendering of a day count, as written by the CSV serializer
for a midnight timestamp column. -/
def renderDate (z : Nat) : String :=
  let c := civilFromDays z
  toString c.1 ++ "-" ++ pad2 c.2.1 ++ "-" ++ pad2 c.2.2

/-- Split a character list on the `-` separator. -/
def splitDash : List Char → List (List Char)
  | [] => [[]]
  | c :: rest =>
    let r := splitDash rest
    if c = '-' then [] :: r
    else
      match r with
      | [] => [[c]]
      | g :: gs => (c :: g) :: gs

/-- Numeric value of a decimal digit character, `none` for a non-digit. -/
def digitVal? (c : Char) : Option Nat :=
  if '0' ≤ c ∧ c ≤ '9' then some (c.toNat - '0'.toNat) else none

/-- Accumulate decimal digits into a number, failing on a non-digit. -/
def digitsAux : List Char → Nat → Option Nat
  | [], acc => some acc
  | c :: rest, acc =>
    match digitVal? c with
    | some d => digitsAux rest (acc * 10 + d)
    | none => none

/-- Parse a non-empty all-digit character list as a natural number. -/
def digitsToNat? (cs : List Char) : Option Nat :=
  if cs = [] then none else digitsAux cs 0

/-- Shallow model of the pandas date coercion on one cell: parse an ISO
`YYYY-MM-DD` string to a day count, `none` when the text is not a valid
calendar date. -/
def parseDate (s : String) : Option Nat :=
  match splitDash s.data with
  | [ys, ms, ds] =>
    match digitsToNat? ys, digitsToNat? ms, digitsToNat? ds with
    | some y, some m, some d =>
      if 1970 ≤ y ∧ 1 ≤ m ∧ m ≤ 12 ∧ 1 ≤ d ∧ d ≤ daysInMonth y m then
        some (daysFromCivil y m d)
      else none
    | _, _, _ => none
  | _ => none

/-- Day count of 2023-01-01, the fixed epoch of the sample-data generator. -/
def epoch2023 : Nat := daysFromCivil 2023 1 1

example : epoch2023 = 19358 := by decide
example : civilFromDays 19358 = (2023, 1, 1) := by decide
example : renderDate 19358 = "2023-01-01" := by decide
example : parseDate "2023-01-01" = some 19358 := by decide
example : parseDate "2023-02-30" = none := by decide
example : parseDate "hello" = none := by decide

/-!
## Tabular model

`validate_data` (src/app.py lines 77-90) receives the dataframe produced by the
CSV reader.  A cell is either raw text (as read from the file), a parsed
timestamp (written by the date coercion), or the not-a-time sentinel `naT`
that the coercion writes for an unparseable entry.
-/

/-- One dataframe cell. -/
inductive Cell where
  | str : String → Cell
  | dt : Nat → Cell
  | naT : Cell
  deriving DecidableEq, Repr

/-- Pandas `to_datetime(…, errors='coerce')` on a single cell: text is parsed,
an already-coerced timestamp is kept, anything unparseable becomes `naT`. -/
def coerceCell : Cell → Cell
  | .str s => (parseDate s).elim Cell.naT Cell.dt
  | .dt z => .dt z
  | .naT => .naT

/-- A dataframe: named columns and rows of cells, positionally aligned. -/
structure DataFrame where
  cols : List String
  rows : List (List Cell)
  deriving DecidableEq, Repr

/-- Whitespace test used by header trimming. -/
def isWs (c : Char) : Bool :=
  c = ' ' || c = '\t' || c = '\n' || c = '\r'

/-- Strip leading and trailing whitespace from a character list. -/
def trimChars (cs : List Char) : List Char :=
  ((cs.dropWhile isWs).reverse.dropWhile isWs).reverse

/-- ASCII lower-casing of one character. -/
def lowerChar (c : Char) : Char :=
  if 'A' ≤ c && c ≤ 'Z' then Char.ofNat (c.toNat + 32) else c

/-- Replace a space by an underscore. -/
def underscoreChar (c : Char) : Char :=
  if c = ' ' then '_' else c

/-- Column-name normalization of src/app.py line 79:
`col.strip().lower().replace(' ', '_')` (ASCII header names). -/
def normalizeCol (s : String) : String :=
  ⟨(trimChars s.data).map (fun c => underscoreChar (lowerChar c))⟩

example : normalizeCol " Platform Name " = "platform_name" := by decide

/-- The frame after the in-place header assignment `df.columns = […]`. -/
def normFrame (df : DataFrame) : DataFrame :=
  { df with cols := df.cols.map normalizeCol }

/-- Normalized column names of the input frame. -/
def normCols (df : DataFrame) : List String :=
  df.cols.map normalizeCol

/-- The required field set of src/app.py line 80. -/
def requiredCols : List String := ["date", "platform", "hours", "earnings"]

/-- `required - set(df.columns)` after normalization (src/app.py line 81). -/
def missingCols (df : DataFrame) : List String :=
  requiredCols.filter (fun c => !((normCols df).contains c))

/-- Apply the date coercion to the cells sitting under a `date` header. -/
def mapDateCells (cols : List String) (row : List Cell) : List Cell :=
  List.zipWith (fun c cell => if c = "date" then coerceCell cell else cell) cols row

/-- The frame after the in-place assignment
`df['date'] = pd.to_datetime(df['date'], errors='coerce')` (src/app.py line 84). -/
def coerceFrame (df : DataFrame) : DataFrame :=
  { df with rows := df.rows.map (mapDateCells df.cols) }

/-- The cells of row `row` lying in columns named `c`. -/
def rowCells (cols : List String) (c : String) (row : List Cell) : List Cell :=
  (List.zip cols row).filterMap (fun pr => if pr.1 = c then some pr.2 else none)

/-- The cells of the column named `c` (`df[c]`). -/
def DataFrame.getCol (df : DataFrame) (c : String) : List Cell :=
  df.rows.flatMap (rowCells df.cols c)

deriving instance DecidableEq for Except

/-- The two rejection reasons of `validate_data`: the `ValueError` messages of
src/app.py lines 83 and 86. -/
inductive ValidationError where
  | missingColumns : List String → ValidationError
  | invalidDate : ValidationError
  deriving DecidableEq, Repr

/-- `validate_data` of src/app.py lines 77-90.  The Python function mutates its
argument in place (header assignment, date-column assignment) before each check,
so the embedding returns both the caller's dataframe as it stands after the call
and the result (the validated frame, or the error that was displayed while
`None` was returned). -/
def validate_data (df : DataFrame) : DataFrame × Except ValidationError DataFrame :=
  let df1 := normFrame df
  let missing := missingCols df
  if missing = [] then
    let df2 := coerceFrame df1
    if (df2.getCol "date").any (fun c => c == Cell.naT) then
      (df2, .error .invalidDate)
    else
      (df2, .ok df2)
  else
    (df1, .error (.missingColumns missing))

example :
    validate_data { cols := ["Date", "Platform", "hours", "earnings"],
                    rows := [[.str "2023-01-01", .str "Uber", .str "3", .str "70"]] }
      = ({ cols := ["date", "platform", "hours", "earnings"],
           rows := [[.dt 19358, .str "Uber", .str "3", .str "70"]] },
         .ok { cols := ["date", "platform", "hours", "earnings"],
               rows := [[.dt 19358, .str "Uber", .str "3", .str "70"]] }) := by
  decide

example :
    (validate_data { cols := ["date", "hours", "earnings"], rows := [] }).2
      = .error (.missingColumns ["platform"]) := by decide

example :
    (validate_data { cols := ["date", "platform", "hours", "earnings"],
                     rows := [[.str "not-a-date", .str "Uber", .str "3", .str "70"]] }).2
      = .error .invalidDate := by decide

/-!
## Sample data generator (src/app.py lines 66-75)

`np.random.randint(lo, hi)` draws uniformly from the half-open range
`[lo, hi)`; `np.random.uniform(lo, hi)` draws from `[lo, hi)`;
`np.random.choice(labels)` draws uniformly from the label list; `.round(1)`
rounds half to even.  Each draw is parameterized by the underlying random
stream, modelled as a function from the row index.
-/

/-- `np.random.randint(lo, hi)` for draw `r`: its value set is exactly
`[lo, hi)`. -/
def npRandint (lo hi : Nat) (r : Nat) : Nat :=
  lo + r % (hi - lo)

/-- `np.random.uniform(lo, hi)` for a unit draw `u ∈ [0, 1)`. -/
def npUniform (lo hi : ℚ) (u : ℚ) : ℚ :=
  lo + u * (hi - lo)

/-- Round half to even, the rounding used by `numpy.round`. -/
def roundHalfEven (q : ℚ) : ℤ :=
  let f := ⌊q⌋
  let frac := q - f
  if frac < 1 / 2 then f
  else if 1 / 2 < frac then f + 1
  else if f % 2 = 0 then f else f + 1

/-- `.round(1)`: round to one decimal place. -/
def round1 (q : ℚ) : ℚ :=
  (roundHalfEven (q * 10) : ℚ) / 10

/-- The platform labels of src/app.py line 73. -/
def platformLabels : List String := ["Uber", "DoorDash", "Lyft"]

/-- One generated sample row. -/
structure SampleRow where
  date : Nat
  earnings : Nat
  hours : Nat
  platform : String
  miles : ℚ
  deriving DecidableEq, Repr

/-- `load_sample_data` (src/app.py lines 66-75): 90 rows dated consecutively
from 2023-01-01, with per-row draws `re`, `rh`, `rp` (integer streams) and
`ru` (unit-interval stream). -/
def load_sample_data (re rh rp : Nat → Nat) (ru : Nat → ℚ) : List SampleRow :=
  (List.range 90).map fun i =>
    { date := epoch2023 + i
    , earnings := npRandint 50 200 (re i)
    , hours := npRandint 2 8 (rh i)
    , platform := platformLabels.getD (rp i % 3) ""
    , miles := round1 (npUniform 5 50 (ru i)) }

/-!
## Aggregation (src/app.py lines 136-165)

The metrics consume the validated table's typed columns; a validated record
carries a parsed date, the platform label, and numeric `hours`, `earnings`
and (when the column is present) `miles`.
-/

/-- One row of a validated Record Set, as consumed by the aggregation. -/
structure Record where
  date : Nat
  platform : String
  hours : ℚ
  earnings : ℚ
  miles : ℚ
  deriving DecidableEq, Repr

/-- `data['earnings'].sum()`. -/
def earningsSum (rs : List Record) : ℚ :=
  (rs.map Record.earnings).sum

/-- `data['hours'].sum()`. -/
def hoursSum (rs : List Record) : ℚ :=
  (rs.map Record.hours).sum

/-- `data['miles'].sum()`. -/
def milesSum (rs : List Record) : ℚ :=
  (rs.map Record.miles).sum

/-- `data['earnings'].sum() / max(1, data['hours'].sum())` (src/app.py line 142). -/
def avg_hourly_rate (rs : List Record) : ℚ :=
  earningsSum rs / max 1 (hoursSum rs)

/-- `data['earnings'].sum() / max(1, data['miles'].sum())` (src/app.py line 145). -/
def earnings_per_mile (rs : List Record) : ℚ :=
  earningsSum rs / max 1 (milesSum rs)

/-- The fourth summary metric (src/app.py lines 144-148): earnings per mile
when the `miles` column is present, otherwise the row count. -/
def mileMetric (hasMiles : Bool) (rs : List Record) : ℚ ⊕ Nat :=
  if hasMiles then .inl (earnings_per_mile rs) else .inr rs.length

/-- Week-ending-Sunday key of `resample('W', on='date')`: the next Sunday on
or after the given day (1970-01-04, day 3, was a Sunday). -/
def weekEnding (d : Nat) : Nat :=
  d + (10 - d % 7) % 7

/-- The distinct week keys of a Record Set, in first-occurrence order. -/
def weeklyKeys (rs : List Record) : List Nat :=
  (rs.map (fun r => weekEnding r.date)).dedup

/-- `data.resample('W', on='date').sum(numeric_only=True)` restricted to the
`earnings` column (src/app.py line 152): per-week earnings totals.  Weeks with
no rows contribute a zero total in pandas and are omitted here; the claimed sum
identity is unaffected. -/
def weeklyTotals (rs : List Record) : List (Nat × ℚ) :=
  (weeklyKeys rs).map fun k =>
    (k, ((rs.filter (fun r => weekEnding r.date == k)).map Record.earnings).sum)

/-- The per-platform 4-tuple of statistics of src/app.py lines 156-159. -/
structure PlatformAgg where
  earnings_sum : ℚ
  earnings_mean : ℚ
  hours_sum : ℚ
  hours_mean : ℚ
  deriving DecidableEq, Repr

/-- The distinct platform labels of a Record Set, in first-occurrence order
(pandas sorts group keys; the key order is irrelevant to the claims). -/
def platformKeys (rs : List Record) : List String :=
  (rs.map Record.platform).dedup

/-- `data.groupby("platform").agg({"earnings": ["sum", "mean"], "hours":
["sum", "mean"]})` (src/app.py lines 156-159); the mean of a group is its sum
divided by its size. -/
def platform_stats (rs : List Record) : List (String × PlatformAgg) :=
  (platformKeys rs).map fun p =>
    let g := rs.filter (fun r => r.platform == p)
    (p, { earnings_sum := (g.map Record.earnings).sum
        , earnings_mean := (g.map Record.earnings).sum / g.length
        , hours_sum := (g.map Record.hours).sum
        , hours_mean := (g.map Record.hours).sum / g.length })

/-!
## Advisory collaborator (src/granite_helper.py) and its invocation

Both public `GigAI` methods wrap the remote call in `try/except` and return
`f"Error …: {e}"` on failure.  The interaction handlers of src/app.py lines
168-171 and 176-181, however, invoke the attribute names `predict_schedule`
and `ask_question` on the `GigAI` instance; Python attribute dispatch on a
missing method raises `AttributeError`.  The dispatch is modelled explicitly.
-/

/-- Outcome of the remote `model.generate_text` round trip. -/
inductive RemoteOutcome where
  | success : String → RemoteOutcome
  | failure : String → RemoteOutcome
  deriving DecidableEq, Repr

/-- Result of a Python call: a returned string, or an uncaught exception. -/
inductive PyResult where
  | ok : String → PyResult
  | attrError : String → PyResult
  deriving DecidableEq, Repr

/-- Body of `GigAI.generate_judge_ready_recommendations`
(src/granite_helper.py lines 36-83): the remote reply stripped, or the
caught failure as an error string. -/
def generate_judge_ready_recommendations : RemoteOutcome → String
  | .success t => t.trim
  | .failure m => "Error generating report: " ++ m

/-- Body of `GigAI.answer_question` (src/granite_helper.py lines 85-115). -/
def answer_question : RemoteOutcome → String
  | .success t => t.trim
  | .failure m => "Error generating response: " ++ m

/-- Python attribute dispatch of a method call on a `GigAI` instance: the two
defined methods run their bodies; any other attribute name raises
`AttributeError` naming the attribute. -/
def gigAIInvoke (method : String) (r : RemoteOutcome) : PyResult :=
  if method = "generate_judge_ready_recommendations" then
    .ok (generate_judge_ready_recommendations r)
  else if method = "answer_question" then
    .ok (answer_question r)
  else
    .attrError method

/-- The attribute name invoked by the recommendations button handler
(src/app.py line 170: `gig_ai.predict_schedule(data)`). -/
def adviceHandler (r : RemoteOutcome) : PyResult :=
  gigAIInvoke "predict_schedule" r

/-- The attribute name invoked by the chat submission handler
(src/app.py line 179: `gig_ai.ask_question(prompt)`). -/
def chatHandler (r : RemoteOutcome) : PyResult :=
  gigAIInvoke "ask_question" r

/-!
## Helper lemmas
-/

theorem sum_map_add {α : Type} (f g : α → ℚ) (l : List α) :
    (l.map (fun a => f a + g a)).sum = (l.map f).sum + (l.map g).sum := by
  induction l with
  | nil => simp
  | cons a t ih => simp only [List.map_cons, List.sum_cons, ih]; ring

theorem sum_map_ite_of_mem {κ : Type} [DecidableEq κ] (c : κ) (x : ℚ) :
    ∀ keys : List κ, keys.Nodup → c ∈ keys →
      (keys.map (fun k => if c = k then x else 0)).sum = x := by
  intro keys
  induction keys with
  | nil => intro _ hc; cases hc
  | cons k t ih =>
    intro hnd hc
    obtain ⟨hkt, hndt⟩ := List.nodup_cons.mp hnd
    rcases List.mem_cons.mp hc with h | h
    · subst h
      have hz : (t.map (fun k2 => if c = k2 then x else 0)).sum = 0 := by
        apply List.sum_eq_zero
        intro y hy
        obtain ⟨k2, hk2, rfl⟩ := List.mem_map.mp hy
        have hne : c ≠ k2 := fun he => hkt (he ▸ hk2)
        simp [hne]
      simp [hz]
    · have hck : c ≠ k := fun he => hkt (he ▸ h)
      simp only [List.map_cons, List.sum_cons, if_neg hck, ih hndt h, zero_add]

theorem sum_over_groups {α κ : Type} [DecidableEq κ] (key : α → κ) (f : α → ℚ)
    (keys : List κ) (hnd : keys.Nodup) :
    ∀ rows : List α, (∀ r ∈ rows, key r ∈ keys) →
      (keys.map (fun k => ((rows.filter (fun r => key r == k)).map f).sum)).sum
        = (rows.map f).sum := by
  intro rows
  induction rows with
  | nil =>
    intro _
    simp only [List.filter_nil, List.map_nil, List.sum_nil]
    exact List.sum_eq_zero (fun y hy => by
      obtain ⟨k, _, rfl⟩ := List.mem_map.mp hy; rfl)
  | cons a t ih =>
    intro hmem
    have hka : key a ∈ keys := hmem a (List.mem_cons_self a t)
    have hsplit : ∀ k : κ,
        (((a :: t).filter (fun r => key r == k)).map f).sum
          = (if key a = k then f a else 0)
            + ((t.filter (fun r => key r == k)).map f).sum := by
      intro k
      simp only [List.filter_cons]
      by_cases h : key a = k
      · simp [h]
      · simp [h]
    have hcongr :
        (keys.map (fun k => (((a :: t).filter (fun r => key r == k)).map f).sum))
          = keys.map (fun k => (if key a = k then f a else 0)
              + ((t.filter (fun r => key r == k)).map f).sum) :=
      List.map_congr_left (fun k _ => hsplit k)
    rw [hcongr, sum_map_add, sum_map_ite_of_mem (key a) (f a) keys hnd hka,
        ih (fun r hr => hmem r (List.mem_cons_of_mem a hr))]
    simp

/-!
## C1 — remote-call errors and the interaction handlers
-/

/-- C1: the claim states that requesting recommendations or submitting a chat
question never lets an exception escape the interaction handler, remote
failures being degraded to a displayable `Error…` string.  The `GigAI` method
bodies indeed degrade remote failures to error strings, but both handlers in
`main` invoke attribute names (`predict_schedule`, `ask_question`) that
`GigAI` never defines, so every such interaction raises an uncaught
`AttributeError`: the code contradicts the claim (and the spec's stated
policy). -/
theorem C1_handler_crash :
    (∀ r : RemoteOutcome, adviceHandler r = PyResult.attrError "predict_schedule")
    ∧ (∀ r : RemoteOutcome, chatHandler r = PyResult.attrError "ask_question")
    ∧ (∀ m, ∃ rest,
        generate_judge_ready_recommendations (RemoteOutcome.failure m) = "Error" ++ rest)
    ∧ (∀ m, ∃ rest, answer_question (RemoteOutcome.failure m) = "Error" ++ rest) := by
  refine ⟨fun r => rfl, fun r => rfl,
    fun m => ⟨" generating report: " ++ m, ?_⟩,
    fun m => ⟨" generating response: " ++ m, ?_⟩⟩
  · show "Error generating report: " ++ m = "Error" ++ (" generating report: " ++ m)
    rw [← String.append_assoc]
    rfl
  · show "Error generating response: " ++ m = "Error" ++ (" generating response: " ++ m)
    rw [← String.append_assoc]
    rfl

/-!
## C6 — weekly resample preserves total earnings
-/

/-- C6: the weekly resample partitions rows by calendar week, and the sum of
the per-week earnings totals equals the total earnings of the Record Set. -/
theorem C6_weekly_sum_preserved (rs : List Record) :
    ((weeklyTotals rs).map Prod.snd).sum = earningsSum rs := by
  unfold weeklyTotals earningsSum
  rw [List.map_map]
  exact sum_over_groups (fun r => weekEnding r.date) Record.earnings
    (weeklyKeys rs) (List.nodup_dedup _) rs
    (fun r hr => List.mem_dedup.mpr (List.mem_map_of_mem _ hr))

/-!
## C7 — per-platform breakdown
-/

/-- The Record Set of the spec's worked example: platforms `{A, A, B}` with
earnings `{10, 20, 5}` (dates and the other numeric fields are free; concrete
values are fixed for evaluation). -/
def c7rs : List Record :=
  [ { date := 0, platform := "A", hours := 4, earnings := 10, miles := 1 }
  , { date := 1, platform := "A", hours := 2, earnings := 20, miles := 2 }
  , { date := 2, platform := "B", hours := 1, earnings := 5, miles := 3 } ]

/-- C7: the breakdown groups rows by platform and reports sum and mean of
earnings and hours over each platform's rows; on the worked example, platform
`A` reports earnings sum 30 and mean 15, and `B` reports sum 5 and mean 5. -/
theorem C7_platform_breakdown :
    (∀ (rs : List Record) (p : String), p ∈ rs.map Record.platform →
      ∃ a, (p, a) ∈ platform_stats rs
        ∧ a.earnings_sum = ((rs.filter (fun r => r.platform == p)).map Record.earnings).sum
        ∧ a.earnings_mean = a.earnings_sum / (rs.filter (fun r => r.platform == p)).length
        ∧ a.hours_sum = ((rs.filter (fun r => r.platform == p)).map Record.hours).sum
        ∧ a.hours_mean = a.hours_sum / (rs.filter (fun r => r.platform == p)).length)
    ∧ (platform_stats c7rs).map (fun x => (x.1, x.2.earnings_sum, x.2.earnings_mean))
        = [("A", 30, 15), ("B", 5, 5)] := by
  constructor
  · intro rs p hp
    exact ⟨_, List.mem_map.mpr ⟨p, List.mem_dedup.mpr hp, rfl⟩, rfl, rfl, rfl, rfl⟩
  · have hkeys : platformKeys c7rs = ["A", "B"] := by decide
    unfold platform_stats
    rw [hkeys]
    simp +decide [c7rs, List.filter_cons, List.filter_nil]
    norm_num

theorem C7_platform_breakdown_witness :
    ("A" ∈ c7rs.map Record.platform)
    ∧ ∃ a, ("A", a) ∈ platform_stats c7rs
        ∧ a.earnings_sum = ((c7rs.filter (fun r => r.platform == "A")).map Record.earnings).sum
        ∧ a.earnings_mean = a.earnings_sum / (c7rs.filter (fun r => r.platform == "A")).length
        ∧ a.hours_sum = ((c7rs.filter (fun r => r.platform == "A")).map Record.hours).sum
        ∧ a.hours_mean = a.hours_sum / (c7rs.filter (fun r => r.platform == "A")).length :=
  ⟨by decide, C7_platform_breakdown.1 c7rs "A" (by decide)⟩

/-!
## C8 — zero-divisor guards
-/

/-- C8: when the hours sum to zero the `max(1, …)` guard makes the average
hourly rate equal to total earnings with no division error; analogously for
earnings per mile when the miles column is present and sums to zero. -/
theorem C8_zero_divisor_guard (rs : List Record) (hasMiles : Bool) :
    (hoursSum rs = 0 →
      max 1 (hoursSum rs) = 1 ∧ avg_hourly_rate rs = earningsSum rs)
    ∧ (hasMiles = true → milesSum rs = 0 →
      mileMetric hasMiles rs = Sum.inl (earningsSum rs)) := by
  constructor
  · intro h
    rw [avg_hourly_rate, h]
    norm_num
  · intro hhm h
    rw [mileMetric, hhm, if_pos rfl, earnings_per_mile, h]
    norm_num

/-- Degenerate Record Set for the C8 witness: one record, zero hours, zero
miles. -/
def c8rs : List Record :=
  [ { date := 0, platform := "Uber", hours := 0, earnings := 7, miles := 0 } ]

theorem C8_zero_divisor_guard_witness :
    hoursSum c8rs = 0 ∧ milesSum c8rs = 0
    ∧ avg_hourly_rate c8rs = earningsSum c8rs
    ∧ mileMetric true c8rs = Sum.inl (earningsSum c8rs) :=
  ⟨by norm_num [hoursSum, c8rs], by norm_num [milesSum, c8rs],
   ((C8_zero_divisor_guard c8rs true).1 (by norm_num [hoursSum, c8rs])).2,
   (C8_zero_divisor_guard c8rs true).2 rfl (by norm_num [milesSum, c8rs])⟩

/-!
## C10 — the guard fires on sub-unit divisor sums
-/

/-- C10: for a divisor sum strictly between 0 and 1, the `max(1, …)` guard
replaces the divisor by 1, so the reported rate is total earnings divided
by 1 rather than by the actual sum. -/
theorem C10_subunit_guard (rs : List Record) :
    (0 < hoursSum rs → hoursSum rs < 1 →
      avg_hourly_rate rs = earningsSum rs / 1
      ∧ (earningsSum rs ≠ 0 →
          avg_hourly_rate rs ≠ earningsSum rs / hoursSum rs))
    ∧ (0 < milesSum rs → milesSum rs < 1 →
      earnings_per_mile rs = earningsSum rs / 1
      ∧ (earningsSum rs ≠ 0 →
          earnings_per_mile rs ≠ earningsSum rs / milesSum rs)) := by
  have main : ∀ s e : ℚ, 0 < s → s < 1 →
      e / max 1 s = e / 1 ∧ (e ≠ 0 → e / max 1 s ≠ e / s) := by
    intro s e h1 h2
    have hmax : max 1 s = 1 := max_eq_left h2.le
    refine ⟨by rw [hmax], fun he heq => ?_⟩
    rw [hmax, div_one] at heq
    have hs0 : s ≠ 0 := ne_of_gt h1
    have h3 : e * s = e * 1 := by rw [mul_one]; exact (eq_div_iff hs0).mp heq
    have h4 : s = 1 := mul_left_cancel₀ he h3
    exact absurd h4 (by linarith)
  exact ⟨fun h1 h2 => main (hoursSum rs) (earningsSum rs) h1 h2,
         fun h1 h2 => main (milesSum rs) (earningsSum rs) h1 h2⟩

/-- Record Set for the C10 witness: hours and miles each sum to 1/2. -/
def c10rs : List Record :=
  [ { date := 0, platform := "Uber", hours := 1/2, earnings := 7, miles := 1/2 } ]

theorem C10_subunit_guard_witness :
    (0 < hoursSum c10rs ∧ hoursSum c10rs < 1 ∧ earningsSum c10rs ≠ 0)
    ∧ avg_hourly_rate c10rs = earningsSum c10rs / 1
    ∧ avg_hourly_rate c10rs ≠ earningsSum c10rs / hoursSum c10rs :=
  ⟨⟨by norm_num [hoursSum, c10rs], by norm_num [hoursSum, c10rs],
    by norm_num [earningsSum, c10rs]⟩,
   ((C10_subunit_guard c10rs).1 (by norm_num [hoursSum, c10rs])
      (by norm_num [hoursSum, c10rs])).1,
   ((C10_subunit_guard c10rs).1 (by norm_num [hoursSum, c10rs])
      (by norm_num [hoursSum, c10rs])).2 (by norm_num [earningsSum, c10rs])⟩

/-!
## C2 — the sample data generator's contract
-/

theorem roundHalfEven_mem (q : ℚ) :
    ⌊q⌋ ≤ roundHalfEven q ∧ roundHalfEven q ≤ ⌊q⌋ + 1 := by
  unfold roundHalfEven
  by_cases h1 : q - ⌊q⌋ < 1 / 2
  · rw [if_pos h1]; omega
  · rw [if_neg h1]
    by_cases h2 : 1 / 2 < q - ⌊q⌋
    · rw [if_pos h2]; omega
    · rw [if_neg h2]
      by_cases h3 : ⌊q⌋ % 2 = 0
      · rw [if_pos h3]; omega
      · rw [if_neg h3]; omega

theorem round1_uniform_bounds (u : ℚ) (h0 : 0 ≤ u) (h1 : u < 1) :
    5 ≤ round1 (npUniform 5 50 u) ∧ round1 (npUniform 5 50 u) ≤ 50 := by
  set v : ℚ := npUniform 5 50 u with hv
  have hv5 : 5 ≤ v := by
    rw [hv]; unfold npUniform; nlinarith
  have hv50 : v < 50 := by
    rw [hv]; unfold npUniform; nlinarith
  have hfl : (50 : ℤ) ≤ ⌊v * 10⌋ := by
    apply Int.le_floor.mpr
    push_cast
    linarith
  have hfu : ⌊v * 10⌋ < 500 := by
    apply Int.floor_lt.mpr
    push_cast
    linarith
  obtain ⟨hr1, hr2⟩ := roundHalfEven_mem (v * 10)
  have hzl : (50 : ℤ) ≤ roundHalfEven (v * 10) := by omega
  have hzu : roundHalfEven (v * 10) ≤ 500 := by omega
  unfold round1
  constructor
  · rw [le_div_iff₀ (by norm_num : (0:ℚ) < 10)]
    exact_mod_cast hzl
  · rw [div_le_iff₀ (by norm_num : (0:ℚ) < 10)]
    exact_mod_cast hzu

/-- C2 counterexample: the upper endpoints 200 (earnings) and 8 (hours) named
by the claim are not attainable under any randomness, because
`np.random.randint(lo, hi)` excludes `hi`. -/
theorem C2_endpoints_unattainable :
    ¬ ∃ (re rh rp : Nat → Nat) (ru : Nat → ℚ) (r : SampleRow),
        r ∈ load_sample_data re rh rp ru ∧ (r.earnings = 200 ∨ r.hours = 8) := by
  rintro ⟨re, rh, rp, ru, r, hr, hval⟩
  simp only [load_sample_data, List.mem_map] at hr
  obtain ⟨i, _, rfl⟩ := hr
  rcases hval with h | h
  · simp only [npRandint] at h
    omega
  · simp only [npRandint] at h
    omega

/-- C2 amended: every generated Record Set has exactly 90 consecutive dates
from the epoch 2023-01-01; every row has integer earnings in [50,199], integer
hours in [2,7] (the upper bounds of `np.random.randint(50,200)` and
`randint(2,8)` are exclusive), a platform from the fixed three-label set, and
miles in [5,50] with one decimal; the endpoints 50, 199, 2 and 7 are each
attainable. -/
theorem C2_sample_contract (re rh rp : Nat → Nat) (ru : Nat → ℚ)
    (hu : ∀ i, 0 ≤ ru i ∧ ru i < 1) :
    (load_sample_data re rh rp ru).map SampleRow.date
        = (List.range 90).map (fun i => epoch2023 + i)
    ∧ (load_sample_data re rh rp ru).length = 90
    ∧ (∀ r ∈ load_sample_data re rh rp ru,
        (50 ≤ r.earnings ∧ r.earnings ≤ 199)
        ∧ (2 ≤ r.hours ∧ r.hours ≤ 7)
        ∧ r.platform ∈ platformLabels
        ∧ (5 ≤ r.miles ∧ r.miles ≤ 50 ∧ ∃ z : ℤ, r.miles = (z : ℚ) / 10))
    ∧ ((∃ r ∈ load_sample_data (fun _ => 0) rh rp ru, r.earnings = 50)
        ∧ (∃ r ∈ load_sample_data (fun _ => 149) rh rp ru, r.earnings = 199)
        ∧ (∃ r ∈ load_sample_data re (fun _ => 0) rp ru, r.hours = 2)
        ∧ (∃ r ∈ load_sample_data re (fun _ => 5) rp ru, r.hours = 7)) := by
  have hmem0 : ∀ (a b c : Nat → Nat) (d : Nat → ℚ),
      ({ date := epoch2023 + 0, earnings := npRandint 50 200 (a 0)
       , hours := npRandint 2 8 (b 0)
       , platform := platformLabels.getD (c 0 % 3) ""
       , miles := round1 (npUniform 5 50 (d 0)) } : SampleRow)
        ∈ load_sample_data a b c d := by
    intro a b c d
    simp only [load_sample_data, List.mem_map]
    exact ⟨0, List.mem_range.mpr (by norm_num), rfl⟩
  refine ⟨?_, ?_, ?_, ?_⟩
  · simp only [load_sample_data, List.map_map]
    rfl
  · simp [load_sample_data]
  · intro r hr
    simp only [load_sample_data, List.mem_map] at hr
    obtain ⟨i, _, rfl⟩ := hr
    refine ⟨⟨?_, ?_⟩, ⟨?_, ?_⟩, ?_, ?_⟩
    · simp only [npRandint]; omega
    · simp only [npRandint]; omega
    · simp only [npRandint]; omega
    · simp only [npRandint]; omega
    · show platformLabels.getD (rp i % 3) "" ∈ platformLabels
      have h3 : rp i % 3 < 3 := Nat.mod_lt _ (by norm_num)
      rcases (by omega : rp i % 3 = 0 ∨ rp i % 3 = 1 ∨ rp i % 3 = 2) with h | h | h <;>
        rw [h] <;> decide
    · obtain ⟨hb1, hb2⟩ := round1_uniform_bounds (ru i) (hu i).1 (hu i).2
      exact ⟨hb1, hb2, roundHalfEven (npUniform 5 50 (ru i) * 10), rfl⟩
  · refine ⟨⟨_, hmem0 _ rh rp ru, ?_⟩, ⟨_, hmem0 _ rh rp ru, ?_⟩,
      ⟨_, hmem0 re _ rp ru, ?_⟩, ⟨_, hmem0 re _ rp ru, ?_⟩⟩ <;>
      simp [load_sample_data, npRandint]

/-- Constant-zero integer randomness stream. -/
def zeroStream : Nat → Nat := fun _ => 0

/-- Constant-zero unit-interval randomness stream. -/
def zeroQStream : Nat → ℚ := fun _ => 0

theorem C2_sample_contract_witness :
    (∀ i, 0 ≤ zeroQStream i ∧ zeroQStream i < 1)
    ∧ ((load_sample_data zeroStream zeroStream zeroStream zeroQStream).map SampleRow.date
          = (List.range 90).map (fun i => epoch2023 + i)
      ∧ (load_sample_data zeroStream zeroStream zeroStream zeroQStream).length = 90
      ∧ (∀ r ∈ load_sample_data zeroStream zeroStream zeroStream zeroQStream,
          (50 ≤ r.earnings ∧ r.earnings ≤ 199)
          ∧ (2 ≤ r.hours ∧ r.hours ≤ 7)
          ∧ r.platform ∈ platformLabels
          ∧ (5 ≤ r.miles ∧ r.miles ≤ 50 ∧ ∃ z : ℤ, r.miles = (z : ℚ) / 10))
      ∧ ((∃ r ∈ load_sample_data (fun _ => 0) zeroStream zeroStream zeroQStream,
            r.earnings = 50)
          ∧ (∃ r ∈ load_sample_data (fun _ => 149) zeroStream zeroStream zeroQStream,
              r.earnings = 199)
          ∧ (∃ r ∈ load_sample_data zeroStream (fun _ => 0) zeroStream zeroQStream,
              r.hours = 2)
          ∧ (∃ r ∈ load_sample_data zeroStream (fun _ => 5) zeroStream zeroQStream,
              r.hours = 7))) :=
  ⟨fun i => by norm_num [zeroQStream],
   C2_sample_contract zeroStream zeroStream zeroStream zeroQStream
     (fun i => by norm_num [zeroQStream])⟩

/-!
## Validation helper lemmas
-/

theorem rowCells_mapDateCells (cols : List String) :
    ∀ row : List Cell,
      rowCells cols "date" (mapDateCells cols row)
        = (rowCells cols "date" row).map coerceCell := by
  induction cols with
  | nil => intro row; rfl
  | cons c cs ih =>
    intro row
    cases row with
    | nil => rfl
    | cons x xs =>
      by_cases h : c = "date"
      · simp [rowCells, mapDateCells, h] at ih ⊢
        exact ih xs
      · simp [rowCells, mapDateCells, h] at ih ⊢
        exact ih xs

theorem getCol_coerceFrame (df : DataFrame) :
    (coerceFrame df).getCol "date" = (df.getCol "date").map coerceCell := by
  unfold coerceFrame DataFrame.getCol
  rw [List.flatMap_map, List.map_flatMap]
  congr 1
  funext row
  exact rowCells_mapDateCells df.cols row

theorem zipWith_getD {α β γ : Type} (f : α → β → γ) :
    ∀ (as : List α) (bs : List β) (j : Nat), j < as.length → j < bs.length →
      ∀ (da : α) (db : β) (dc : γ),
        (List.zipWith f as bs).getD j dc = f (as.getD j da) (bs.getD j db) := by
  intro as
  induction as with
  | nil => intro bs j h; simp at h
  | cons a as ih =>
    intro bs j h1 h2 da db dc
    cases bs with
    | nil => simp at h2
    | cons b bs =>
      cases j with
      | zero => rfl
      | succ j =>
        simp only [List.zipWith_cons_cons, List.getD_cons_succ]
        exact ih bs j (by simpa using h1) (by simpa using h2) da db dc

/-- Exhaustive case analysis of `validate_data`: the missing-columns rejection,
the invalid-date rejection, or success. -/
theorem validate_data_cases (df : DataFrame) :
    (missingCols df ≠ []
      ∧ validate_data df = (normFrame df, .error (.missingColumns (missingCols df))))
    ∨ (missingCols df = []
      ∧ ((coerceFrame (normFrame df)).getCol "date").any (fun c => c == Cell.naT) = true
      ∧ validate_data df = (coerceFrame (normFrame df), .error .invalidDate))
    ∨ (missingCols df = []
      ∧ ((coerceFrame (normFrame df)).getCol "date").any (fun c => c == Cell.naT) = false
      ∧ validate_data df
          = (coerceFrame (normFrame df), .ok (coerceFrame (normFrame df)))) := by
  by_cases h1 : missingCols df = []
  · by_cases h2 :
        ((coerceFrame (normFrame df)).getCol "date").any (fun c => c == Cell.naT) = true
    · exact .inr (.inl ⟨h1, h2, by simp only [validate_data]; rw [if_pos h1, if_pos h2]⟩)
    · refine .inr (.inr ⟨h1, Bool.eq_false_iff.mpr h2, ?_⟩)
      simp only [validate_data]
      rw [if_pos h1, if_neg h2]
  · exact .inl ⟨h1, by simp only [validate_data]; rw [if_neg h1]⟩

/-!
## C4 — missing required columns
-/

/-- C4: when the normalized header set omits required fields, validation fails
naming exactly the set of missing fields; when no field is missing, the
missing-columns failure does not occur. -/
theorem C4_missing_columns (df : DataFrame) :
    (missingCols df ≠ [] →
      (validate_data df).2 = .error (.missingColumns (missingCols df))
      ∧ (missingCols df).toFinset = requiredCols.toFinset \ (normCols df).toFinset)
    ∧ (missingCols df = [] →
      ∀ m, (validate_data df).2 ≠ .error (.missingColumns m)) := by
  constructor
  · intro h
    constructor
    · rcases validate_data_cases df with ⟨_, he⟩ | ⟨h1, _, _⟩ | ⟨h1, _, _⟩
      · rw [he]
      · exact absurd h1 h
      · exact absurd h1 h
    · ext c
      simp only [missingCols, List.mem_toFinset, List.mem_filter, Finset.mem_sdiff]
      constructor
      · rintro ⟨hreq, hnc⟩
        refine ⟨hreq, fun hmem => ?_⟩
        rw [show (normCols df).contains c = true from List.elem_iff.mpr hmem] at hnc
        simp at hnc
      · rintro ⟨hreq, hnmem⟩
        refine ⟨hreq, ?_⟩
        cases hcon : (normCols df).contains c with
        | true => exact absurd (List.elem_iff.mp hcon) hnmem
        | false => rfl
  · intro h m
    rcases validate_data_cases df with ⟨h1, _⟩ | ⟨_, _, he⟩ | ⟨_, _, he⟩
    · exact absurd h h1
    · rw [he]; simp
    · rw [he]; simp

/-- Frame with headers that normalize to `date` and `hours` only. -/
def c4df : DataFrame := { cols := [" Date ", "Hours"], rows := [] }

theorem C4_missing_columns_witness :
    missingCols c4df ≠ []
    ∧ (validate_data c4df).2 = .error (.missingColumns (missingCols c4df))
    ∧ (missingCols c4df).toFinset = requiredCols.toFinset \ (normCols c4df).toFinset :=
  ⟨by decide, ((C4_missing_columns c4df).1 (by decide)).1,
   ((C4_missing_columns c4df).1 (by decide)).2⟩

/-!
## C5 — invalid dates reject the whole set
-/

/-- C5: with all required columns present, any date cell that fails to parse
rejects the entire table (no partial Record Set), and if every date cell
parses the date check does not fail. -/
theorem C5_invalid_dates (df : DataFrame) (hreq : missingCols df = []) :
    ((∃ c ∈ (normFrame df).getCol "date", coerceCell c = Cell.naT) →
      (validate_data df).2 = .error .invalidDate)
    ∧ ((∀ c ∈ (normFrame df).getCol "date", coerceCell c ≠ Cell.naT) →
      (validate_data df).2 = .ok (coerceFrame (normFrame df))) := by
  have hcol : (coerceFrame (normFrame df)).getCol "date"
      = ((normFrame df).getCol "date").map coerceCell := getCol_coerceFrame _
  constructor
  · rintro ⟨c, hc, hcn⟩
    rcases validate_data_cases df with ⟨h1, _⟩ | ⟨_, _, he⟩ | ⟨_, h2, he⟩
    · exact absurd hreq h1
    · rw [he]
    · exfalso
      have hmem : Cell.naT ∈ (coerceFrame (normFrame df)).getCol "date" := by
        rw [hcol]
        exact hcn ▸ List.mem_map_of_mem coerceCell hc
      have hany : ((coerceFrame (normFrame df)).getCol "date").any
          (fun c => c == Cell.naT) = true :=
        List.any_eq_true.mpr ⟨Cell.naT, hmem, by simp⟩
      rw [hany] at h2
      cases h2
  · intro hall
    rcases validate_data_cases df with ⟨h1, _⟩ | ⟨_, h2, he⟩ | ⟨_, _, he⟩
    · exact absurd hreq h1
    · exfalso
      obtain ⟨x, hx, hbeq⟩ := List.any_eq_true.mp h2
      rw [hcol] at hx
      obtain ⟨c, hc, rfl⟩ := List.mem_map.mp hx
      exact hall c hc (by simpa using hbeq)
    · rw [he]

/-- Frame with all required columns and one unparseable date cell. -/
def c5df : DataFrame :=
  { cols := ["date", "platform", "hours", "earnings"]
  , rows := [[.str "2023-01-01", .str "Uber", .str "3", .str "70"],
             [.str "bogus", .str "Lyft", .str "2", .str "50"]] }

theorem C5_invalid_dates_witness :
    missingCols c5df = []
    ∧ (∃ c ∈ (normFrame c5df).getCol "date", coerceCell c = Cell.naT)
    ∧ (validate_data c5df).2 = .error .invalidDate :=
  ⟨by decide, by decide, (C5_invalid_dates c5df (by decide)).1 (by decide)⟩

/-!
## C3 — validator side effects
-/

/-- Frame whose validation fails (missing columns) after the in-place header
renaming has already happened. -/
def c3df : DataFrame :=
  { cols := ["Date", "platform"], rows := [[.str "2023-01-01", .str "Uber"]] }

/-- C3 counterexample: validation of `c3df` fails, yet the caller's table is
not left unmodified — the in-place header normalization survives the
rejection. -/
theorem C3_mutation_on_failure :
    (validate_data c3df).2 = .error (.missingColumns ["hours", "earnings"])
    ∧ (validate_data c3df).1 ≠ c3df := by
  constructor
  · decide
  · decide

/-- C3 amended: on success the result is the input with normalized headers and
a coerced date column, nothing else (same rows, same row count, non-date cells
untouched); on failure the caller's table retains the in-place mutations made
before the failing check — header normalization always, and the date-sentinel
writes as well when the failure is the invalid-date check. -/
theorem C3_validator_frame (df out : DataFrame) (m : List String) :
    ((validate_data df).2 = .ok out →
      out = coerceFrame (normFrame df) ∧ (validate_data df).1 = out)
    ∧ ((validate_data df).2 = .error (.missingColumns m) →
      (validate_data df).1 = normFrame df)
    ∧ ((validate_data df).2 = .error .invalidDate →
      (validate_data df).1 = coerceFrame (normFrame df))
    ∧ (normFrame df).rows = df.rows
    ∧ (coerceFrame (normFrame df)).cols = normCols df
    ∧ (coerceFrame (normFrame df)).rows.length = df.rows.length
    ∧ (∀ row ∈ df.rows, ∀ j : Nat, j < row.length → j < df.cols.length →
        (normCols df).getD j "" ≠ "date" →
        (mapDateCells (normCols df) row).getD j Cell.naT = row.getD j Cell.naT) := by
  refine ⟨?_, ?_, ?_, rfl, rfl, by simp [coerceFrame, normFrame], ?_⟩
  · intro h
    rcases validate_data_cases df with ⟨_, he⟩ | ⟨_, _, he⟩ | ⟨_, _, he⟩
    · rw [he] at h; cases h
    · rw [he] at h; cases h
    · rw [he] at h
      obtain rfl : coerceFrame (normFrame df) = out := by
        simpa using h
      exact ⟨rfl, by rw [he]⟩
  · intro h
    rcases validate_data_cases df with ⟨_, he⟩ | ⟨_, _, he⟩ | ⟨_, _, he⟩
    · rw [he]
    · rw [he] at h; cases h
    · rw [he] at h; cases h
  · intro h
    rcases validate_data_cases df with ⟨_, he⟩ | ⟨_, _, he⟩ | ⟨_, _, he⟩
    · rw [he] at h; cases h
    · rw [he]
    · rw [he] at h; cases h
  · intro row _ j hj1 hj2 hne
    have hlen : j < (normCols df).length := by
      simpa [normCols] using hj2
    rw [mapDateCells, zipWith_getD _ (normCols df) row j hlen hj1 "" Cell.naT Cell.naT,
      if_neg hne]

/-- Frame that validates successfully, for the C3 witness. -/
def c3good : DataFrame :=
  { cols := ["Date", "Platform", "Hours", "Earnings"]
  , rows := [[.str "2023-01-01", .str "Uber", .str "3", .str "70"]] }

theorem C3_validator_frame_witness :
    (validate_data c3good).2 = .ok (coerceFrame (normFrame c3good))
    ∧ (coerceFrame (normFrame c3good) = coerceFrame (normFrame c3good)
        ∧ (validate_data c3good).1 = coerceFrame (normFrame c3good)) :=
  ⟨by decide,
   (C3_validator_frame c3good (coerceFrame (normFrame c3good)) []).1 (by decide)⟩

/-!
## C9 — sample data round trip
-/

/-- Serialized text of a miles cell; its content is irrelevant to validation. -/
def milesToStr (q : ℚ) : String := toString q

/-- The frame obtained by writing the sample table with `to_csv(index=False)`
(src/app.py line 131) and reading it back with `read_csv` (line 117): the five
columns in construction order, each cell its written text, dates rendered in
ISO form. -/
def sampleToCSVFrame (rows0 : List SampleRow) : DataFrame :=
  { cols := ["date", "earnings", "hours", "platform", "miles"]
  , rows := rows0.map fun r =>
      [ Cell.str (renderDate r.date), Cell.str (toString r.earnings)
      , Cell.str (toString r.hours), Cell.str r.platform
      , Cell.str (milesToStr r.miles) ] }

theorem normFrame_sampleToCSVFrame (rows0 : List SampleRow) :
    normFrame (sampleToCSVFrame rows0) = sampleToCSVFrame rows0 := by
  unfold normFrame sampleToCSVFrame
  congr 1

theorem missingCols_sampleToCSVFrame (rows0 : List SampleRow) :
    missingCols (sampleToCSVFrame rows0) = [] := rfl

theorem getCol_sampleToCSVFrame :
    ∀ rows0 : List SampleRow,
      (sampleToCSVFrame rows0).getCol "date"
        = rows0.map (fun r => Cell.str (renderDate r.date)) := by
  intro rows0
  induction rows0 with
  | nil => rfl
  | cons r t ih =>
    have hstep : (sampleToCSVFrame (r :: t)).getCol "date"
        = rowCells ["date", "earnings", "hours", "platform", "miles"] "date"
            [ Cell.str (renderDate r.date), Cell.str (toString r.earnings)
            , Cell.str (toString r.hours), Cell.str r.platform
            , Cell.str (milesToStr r.miles) ]
          ++ (sampleToCSVFrame t).getCol "date" := rfl
    rw [hstep, ih]
    rfl

set_option maxRecDepth 8000 in
/-- Every date the generator emits renders to text that the date coercion
parses back to the same day. -/
theorem sample_dates_parse :
    ∀ i : Nat, i < 90 → parseDate (renderDate (epoch2023 + i)) = some (epoch2023 + i) := by
  decide

/-- Validation succeeds when no required column is missing and every date cell
coerces to a timestamp. -/
theorem validate_data_ok (df : DataFrame) (hreq : missingCols df = [])
    (hall : ∀ c ∈ (normFrame df).getCol "date", coerceCell c ≠ Cell.naT) :
    (validate_data df).2 = .ok (coerceFrame (normFrame df)) := by
  rcases validate_data_cases df with ⟨h1, _⟩ | ⟨_, h2, he⟩ | ⟨_, _, he⟩
  · exact absurd hreq h1
  · exfalso
    obtain ⟨x, hx, hbeq⟩ := List.any_eq_true.mp h2
    rw [getCol_coerceFrame] at hx
    obtain ⟨c, hc, rfl⟩ := List.mem_map.mp hx
    exact hall c hc (by simpa using hbeq)
  · rw [he]

/-- C9: generating sample data, writing it to the CSV output format and
re-validating the parsed result succeeds — the required columns survive the
round trip and every written date re-parses as a valid calendar date. -/
theorem C9_roundtrip (re rh rp : Nat → Nat) (ru : Nat → ℚ) :
    ∃ out, (validate_data (sampleToCSVFrame (load_sample_data re rh rp ru))).2
      = Except.ok out := by
  refine ⟨_, validate_data_ok _ (missingCols_sampleToCSVFrame _) ?_⟩
  rw [normFrame_sampleToCSVFrame, getCol_sampleToCSVFrame]
  intro c hc
  obtain ⟨r, hr, rfl⟩ := List.mem_map.mp hc
  simp only [load_sample_data, List.mem_map] at hr
  obtain ⟨i, hi, rfl⟩ := hr
  have hparse := sample_dates_parse i (List.mem_range.mp hi)
  intro hcontra
  rw [show coerceCell (Cell.str (renderDate (epoch2023 + i)))
        = (parseDate (renderDate (epoch2023 + i))).elim Cell.naT Cell.dt from rfl,
      hparse] at hcontra
  exact Cell.noConfusion hcontra

end GigHub
